import Mathlib

/-!
Shallow embedding of the erpnext-mcp-server TypeScript sources.

The embedding models the fragment of the JavaScript runtime the sources
exercise: values (`JSVal`, with numbers restricted to integers — no claim
involves fractional JS numbers), truthiness, `String(...)` coercion,
property access, `JSON.parse` / `JSON.stringify`, and string trimming.
On top of that the repository's functions are translated one-to-one:
`validateIdentifier`, `validateObject`, `validatePositiveInt`,
`validateStringArray` (src/utils/validation.ts), `extractErrorDetails`
and the ERPNext client methods (src/client/erpnext-client.ts),
the tool handlers (src/handlers/tool-handlers.ts), the resource read
handler (src/handlers/resource-handlers.ts), and the HTTP session
routing (src/http-server.ts).
-/

/-- A JavaScript value, restricted to the fragment the sources manipulate.
Numbers are modelled as integers: every numeric value appearing in the
code and its inputs of interest (statuses, limits, field flags) is an
integer, and no claim depends on fractional arithmetic. -/
inductive JSVal where
  | undefv : JSVal
  | nullv : JSVal
  | bool : Bool → JSVal
  | num : Int → JSVal
  | str : String → JSVal
  | arr : List JSVal → JSVal
  | obj : List (String × JSVal) → JSVal

/-- JS truthiness: `undefined`, `null`, `false`, `0`, `""` are falsy;
every array and object is truthy. -/
def JSVal.truthy : JSVal → Bool
  | .undefv => false
  | .nullv => false
  | .bool b => b
  | .num n => n != 0
  | .str s => s ≠ ""
  | .arr _ => true
  | .obj _ => true

/-- Property lookup in an object's field list.  `JSON.parse` keeps the
last binding for a duplicated key, so lookup returns the last match. -/
def lookupLast (fields : List (String × JSVal)) (k : String) : JSVal :=
  match fields.reverse.find? (fun p => p.1 == k) with
  | some p => p.2
  | none => .undefv

/-- Property access `v[k]` on a receiver already known to be non-nullish
(primitives yield `undefined` for missing properties). Never used on
`null`/`undefined` receivers — those throw in JS; see `getProp`. -/
def getField (v : JSVal) (k : String) : JSVal :=
  match v with
  | .obj fields => lookupLast fields k
  | _ => .undefv

/-- Property access `v.k` as an exception-aware operation: JS throws a
TypeError when the receiver is `null` or `undefined`. -/
def getProp (v : JSVal) (k : String) : Except Unit JSVal :=
  match v with
  | .undefv => .error ()
  | .nullv => .error ()
  | .obj fields => .ok (lookupLast fields k)
  | _ => .ok .undefv

/-- Optional chaining `v?.k`: `undefined` when the receiver is nullish. -/
def optGet (v : JSVal) (k : String) : JSVal :=
  match v with
  | .undefv => .undefv
  | .nullv => .undefv
  | x => getField x k

/-- `Array.prototype.join`'s separator folding (also the model of
`String.intercalate` used below, kept structural for easy lemmas). -/
def joinWith (sep : String) : List String → String
  | [] => ""
  | [x] => x
  | x :: y :: xs => x ++ sep ++ joinWith sep (y :: xs)

/-- `String(...)` coercion of one array element inside
`Array.prototype.join`: `null` and `undefined` become the empty string. -/
def jsToString : JSVal → String
  | .undefv => "undefined"
  | .nullv => "null"
  | .bool b => if b then "true" else "false"
  | .num n => toString n
  | .str s => s
  | .arr xs => joinWith "," (jsJoinElems xs)
  | .obj _ => "[object Object]"
where
  /-- Element list for `Array.prototype.toString` = `join(",")`. -/
  jsJoinElems : List JSVal → List String
  | [] => []
  | x :: xs =>
    (match x with
     | .undefv => ""
     | .nullv => ""
     | v => jsToString v) :: jsJoinElems xs

/-- `arr.join(sep)` with the JS rule that nullish elements join as `""`. -/
def jsJoin (sep : String) (xs : List JSVal) : String :=
  joinWith sep (xs.map fun x =>
    match x with
    | .undefv => ""
    | .nullv => ""
    | v => jsToString v)

/-- ASCII whitespace recognised by `String.prototype.trim` (the inputs of
interest are ASCII). -/
def isJsWs (c : Char) : Bool :=
  c = ' ' ∨ c = '\t' ∨ c = '\n' ∨ c = '\r' ∨ c = '\x0b' ∨ c = '\x0c'

/-- Characters trimmed from both ends. -/
def trimChars (l : List Char) : List Char :=
  ((l.dropWhile isJsWs).reverse.dropWhile isJsWs).reverse

/-- `s.trim()`. -/
def jsTrim (s : String) : String :=
  String.mk (trimChars s.data)

/-- `s.substring(0, n)`. -/
def jsTake (s : String) (n : Nat) : String :=
  String.mk (s.data.take n)

/-- Does `pre` start the list `l`? -/
def listStartsWith : List Char → List Char → Bool
  | [], _ => true
  | _ :: _, [] => false
  | p :: ps, c :: cs => p = c && listStartsWith ps cs

/-- Does `sub` occur contiguously inside `l`? -/
def listHasSub (l sub : List Char) : Bool :=
  match l with
  | [] => listStartsWith sub []
  | _ :: rest => listStartsWith sub l || listHasSub rest sub

/-- Substring containment on strings. -/
def strContains (s sub : String) : Bool :=
  listHasSub s.data sub.data

/-- String membership of a single character class check used by the
identifier pattern `^[a-zA-Z0-9_\- ]+$`. -/
def allowedIdentChar (c : Char) : Bool :=
  ('a' ≤ c ∧ c ≤ 'z') ∨ ('A' ≤ c ∧ c ≤ 'Z') ∨ ('0' ≤ c ∧ c ≤ '9') ∨
  c = '_' ∨ c = '-' ∨ c = ' '

/-- The regex test `/^[a-zA-Z0-9_\- ]+$/.test(s)`: at least one character,
all from the class. -/
def validIdentifierPattern (s : String) : Bool :=
  s.data ≠ [] && s.data.all allowedIdentChar

/-- Whitespace accepted by `JSON.parse` between tokens. -/
def skipWs : List Char → List Char
  | [] => []
  | c :: cs => if c = ' ' ∨ c = '\t' ∨ c = '\n' ∨ c = '\r' then skipWs cs else c :: cs

/-- Hexadecimal digit value, for `\uXXXX` escapes. -/
def hexDigitVal (c : Char) : Option Nat :=
  if '0' ≤ c ∧ c ≤ '9' then some (c.toNat - '0'.toNat)
  else if 'a' ≤ c ∧ c ≤ 'f' then some (c.toNat - 'a'.toNat + 10)
  else if 'A' ≤ c ∧ c ≤ 'F' then some (c.toNat - 'A'.toNat + 10)
  else none

/-- Single-character JSON string escapes. -/
def jsonEscChar (c : Char) : Option Char :=
  if c = '"' then some '"'
  else if c = '\\' then some '\\'
  else if c = '/' then some '/'
  else if c = 'b' then some '\x08'
  else if c = 'f' then some '\x0c'
  else if c = 'n' then some '\n'
  else if c = 'r' then some '\r'
  else if c = 't' then some '\t'
  else none

/-- Parse the body of a JSON string (opening quote already consumed). -/
def pStringAux : Nat → List Char → List Char → Option (String × List Char)
  | 0, _, _ => none
  | _ + 1, [], _ => none
  | fuel + 1, c :: cs, acc =>
    if c = '"' then some (String.mk acc.reverse, cs)
    else if c = '\\' then
      match cs with
      | [] => none
      | e :: cs' =>
        if e = 'u' then
          match cs' with
          | h1 :: h2 :: h3 :: h4 :: rest =>
            match hexDigitVal h1, hexDigitVal h2, hexDigitVal h3, hexDigitVal h4 with
            | some a, some b, some c3, some d =>
              let n := ((a * 16 + b) * 16 + c3) * 16 + d
              if n < 55296 ∨ (57344 ≤ n ∧ n < 1114112) then
                pStringAux fuel rest (Char.ofNat n :: acc)
              else none
            | _, _, _, _ => none
          | _ => none
        else
          match jsonEscChar e with
          | some ec => pStringAux fuel cs' (ec :: acc)
          | none => none
    else pStringAux fuel cs (c :: acc)

/-- Digit run to a natural number; `none` when the run is empty or holds a
non-digit. -/
def digitsToNat (l : List Char) : Option Nat :=
  if l = [] ∨ ¬ l.all (fun c => '0' ≤ c ∧ c ≤ '9') then none
  else some (l.foldl (fun n c => n * 10 + (c.toNat - '0'.toNat)) 0)

/-- Parse a JSON number.  The model covers integer literals only; a
fractional or exponent part makes the parse fail (no claim involves
non-integer JSON numbers). -/
def pNumber (cs : List Char) : Option (Int × List Char) :=
  let (neg, cs₁) := match cs with
    | '-' :: rest => (true, rest)
    | _ => (false, cs)
  let digits := cs₁.takeWhile (fun c => '0' ≤ c ∧ c ≤ '9')
  let rest := cs₁.drop digits.length
  match digitsToNat digits with
  | none => none
  | some n =>
    match rest with
    | '.' :: _ => none
    | 'e' :: _ => none
    | 'E' :: _ => none
    | _ => some (if neg then -(n : Int) else (n : Int), rest)

/-- Does `lit` start the input? If so return the remainder. -/
def takeLit (lit : List Char) (cs : List Char) : Option (List Char) :=
  if listStartsWith lit cs then some (cs.drop lit.length) else none

mutual

/-- Recursive-descent JSON value parser (fuel-indexed). -/
def pVal : Nat → List Char → Option (JSVal × List Char)
  | 0, _ => none
  | fuel + 1, cs =>
    let cs := skipWs cs
    match cs with
    | [] => none
    | c :: rest =>
      if c = '"' then
        match pStringAux (rest.length + 1) rest [] with
        | some (s, r) => some (.str s, r)
        | none => none
      else if c = '{' then
        match skipWs rest with
        | '}' :: r => some (.obj [], r)
        | r => pMembers fuel r []
      else if c = '[' then
        match skipWs rest with
        | ']' :: r => some (.arr [], r)
        | r => pElems fuel r []
      else if c = 't' then
        match takeLit ['t', 'r', 'u', 'e'] cs with
        | some r => some (.bool true, r)
        | none => none
      else if c = 'f' then
        match takeLit ['f', 'a', 'l', 's', 'e'] cs with
        | some r => some (.bool false, r)
        | none => none
      else if c = 'n' then
        match takeLit ['n', 'u', 'l', 'l'] cs with
        | some r => some (.nullv, r)
        | none => none
      else
        match pNumber cs with
        | some (n, r) => some (.num n, r)
        | none => none

/-- Array elements after `[` (or after a `,`). -/
def pElems : Nat → List Char → List JSVal → Option (JSVal × List Char)
  | 0, _, _ => none
  | fuel + 1, cs, acc =>
    match pVal fuel cs with
    | none => none
    | some (v, r) =>
      match skipWs r with
      | ',' :: r' => pElems fuel r' (v :: acc)
      | ']' :: r' => some (.arr (v :: acc).reverse, r')
      | _ => none

/-- Object members after `{` (or after a `,`). -/
def pMembers : Nat → List Char → List (String × JSVal) → Option (JSVal × List Char)
  | 0, _, _ => none
  | fuel + 1, cs, acc =>
    match skipWs cs with
    | [] => none
    | c :: rest =>
      if c = '"' then
        match pStringAux (rest.length + 1) rest [] with
        | none => none
        | some (k, r) =>
          match skipWs r with
          | ':' :: r' =>
            match pVal fuel r' with
            | none => none
            | some (v, r'') =>
              match skipWs r'' with
              | ',' :: r3 => pMembers fuel r3 ((k, v) :: acc)
              | '}' :: r3 => some (.obj ((k, v) :: acc).reverse, r3)
              | _ => none
          | _ => none
      else none

end

/-- `JSON.parse`: `none` models a thrown `SyntaxError` (including
trailing garbage after the value). -/
def jsonParse (s : String) : Option JSVal :=
  match pVal (2 * s.data.length + 2) s.data with
  | some (v, rest) => if skipWs rest = [] then some v else none
  | none => none

/-- Hex digit character for `\u00XX` escapes in `JSON.stringify`. -/
def toHexDigit (n : Nat) : Char :=
  if n < 10 then Char.ofNat ('0'.toNat + n) else Char.ofNat ('a'.toNat + (n - 10))

/-- `JSON.stringify` escaping of one character inside a string literal. -/
def jsonEscapeOut (c : Char) : String :=
  if c = '"' then "\\\""
  else if c = '\\' then "\\\\"
  else if c = '\x08' then "\\b"
  else if c = '\x0c' then "\\f"
  else if c = '\n' then "\\n"
  else if c = '\r' then "\\r"
  else if c = '\t' then "\\t"
  else if c.toNat < 32 then
    String.mk ['\\', 'u', '0', '0', toHexDigit (c.toNat / 16), toHexDigit (c.toNat % 16)]
  else String.mk [c]

/-- A JSON string literal for `s`. -/
def jsonQuote (s : String) : String :=
  "\"" ++ String.join (s.data.map jsonEscapeOut) ++ "\""

/-- `n` spaces. -/
def indentStr (n : Nat) : String :=
  String.mk (List.replicate n ' ')

/-- Assemble an array literal from already-rendered elements, with the
2-space indentation `JSON.stringify(v, null, 2)` produces when `pretty`. -/
def assembleArr (pretty : Bool) (ind : Nat) (elems : List String) : String :=
  if elems = [] then "[]"
  else if pretty then
    "[\n" ++ String.intercalate ",\n" (elems.map (indentStr (ind + 2) ++ ·)) ++
      "\n" ++ indentStr ind ++ "]"
  else "[" ++ String.intercalate "," elems ++ "]"

/-- Assemble an object literal from rendered key/value pairs. -/
def assembleObj (pretty : Bool) (ind : Nat) (fields : List (String × String)) : String :=
  if fields = [] then "\x7b\x7d"
  else if pretty then
    "\x7b\n" ++
      String.intercalate ",\n"
        (fields.map fun p => indentStr (ind + 2) ++ jsonQuote p.1 ++ ": " ++ p.2) ++
      "\n" ++ indentStr ind ++ "\x7d"
  else
    "\x7b" ++ String.intercalate "," (fields.map fun p => jsonQuote p.1 ++ ":" ++ p.2) ++ "\x7d"

mutual

/-- `JSON.stringify(v, null, pretty ? 2 : undefined)` at indentation level
`ind`; `none` models the `undefined` result for an unserialisable value. -/
def stringifyV (pretty : Bool) (ind : Nat) : JSVal → Option String
  | .undefv => none
  | .nullv => some "null"
  | .bool b => some (if b then "true" else "false")
  | .num n => some (toString n)
  | .str s => some (jsonQuote s)
  | .arr xs => some (assembleArr pretty ind (stringifyElems pretty (ind + 2) xs))
  | .obj fs => some (assembleObj pretty ind (stringifyFields pretty (ind + 2) fs))

/-- Array elements render `undefined` as `null`. -/
def stringifyElems (pretty : Bool) (ind : Nat) : List JSVal → List String
  | [] => []
  | x :: xs =>
    (match stringifyV pretty ind x with
     | some s => s
     | none => "null") :: stringifyElems pretty ind xs

/-- Object entries with `undefined` values are dropped. -/
def stringifyFields (pretty : Bool) (ind : Nat) :
    List (String × JSVal) → List (String × String)
  | [] => []
  | (k, v) :: fs =>
    match stringifyV pretty ind v with
    | some s => (k, s) :: stringifyFields pretty ind fs
    | none => stringifyFields pretty ind fs

end

/-- `JSON.stringify(v, null, 2)` as used for tool results. -/
def jsonStringifyPretty (v : JSVal) : Option String :=
  stringifyV true 0 v

/-- `JSON.stringify(v)` as used for query parameters. -/
def jsonStringify (v : JSVal) : Option String :=
  stringifyV false 0 v

/-- Integer literal contents for `Number(string)`: optional sign and a
digit run (the fragment exercised; no claim involves float syntax). -/
def parseSignedInt (l : List Char) : Option Int :=
  match l with
  | '-' :: rest => (digitsToNat rest).map fun n => -(n : Int)
  | '+' :: rest => (digitsToNat rest).map fun n => (n : Int)
  | _ => (digitsToNat l).map fun n => (n : Int)

/-- `Number(v)` coercion; `none` models `NaN`. -/
def jsToNumber : JSVal → Option Int
  | .undefv => none
  | .nullv => some 0
  | .bool b => some (if b then 1 else 0)
  | .num n => some n
  | .str s =>
    let t := jsTrim s
    if t = "" then some 0 else parseSignedInt t.data
  | .arr [] => some 0
  | .arr [x] => jsToNumber x
  | .arr (_ :: _ :: _) => none
  | .obj _ => none

/-- Is the value `undefined` or `null`? -/
def isNullish : JSVal → Bool
  | .undefv => true
  | .nullv => true
  | _ => false

/-!
## src/utils/validation.ts
-/

/-- `validateIdentifier(value, fieldName)` from src/utils/validation.ts.
Throwing `new Error(msg)` is modelled as `.error msg`. -/
def validateIdentifier (value : JSVal) (fieldName : String) : Except String String :=
  if isNullish value then .error (fieldName ++ " is required")
  else
    let strValue := jsTrim (jsToString value)
    if strValue.length = 0 then .error (fieldName ++ " cannot be empty")
    else if strValue.length > 140 then
      .error (fieldName ++ " exceeds maximum length of 140 characters")
    else if ¬ validIdentifierPattern strValue then
      .error (fieldName ++ " contains invalid characters. Only alphanumeric characters, spaces, hyphens, and underscores are allowed.")
    else .ok strValue

/-- `validateObject(value, fieldName)` from src/utils/validation.ts:
non-null, non-array objects pass through unchanged. -/
def validateObject (value : JSVal) (fieldName : String) :
    Except String JSVal :=
  if isNullish value then .error (fieldName ++ " is required")
  else
    match value with
    | .obj _ => .ok value
    | _ => .error (fieldName ++ " must be an object")

/-- `validatePositiveInt(value, fieldName)` from src/utils/validation.ts.
`Number.isInteger(NaN)` is false, so a `NaN` coercion fails the check. -/
def validatePositiveInt (value : JSVal) (fieldName : String) :
    Except String (Option Int) :=
  if isNullish value then .ok none
  else
    match jsToNumber value with
    | none => .error (fieldName ++ " must be a positive integer")
    | some n =>
      if n ≤ 0 then .error (fieldName ++ " must be a positive integer")
      else .ok (some n)

/-- `validateStringArray(value, fieldName)` from src/utils/validation.ts. -/
def validateStringArray (value : JSVal) (fieldName : String) :
    Except String (Option (List String)) :=
  if isNullish value then .ok none
  else
    match value with
    | .arr items => .ok (some (items.map jsToString))
    | _ => .error (fieldName ++ " must be an array")

/-!
## extractErrorDetails (src/client/erpnext-client.ts)
-/

/-- A failure value caught from a remote call, as `extractErrorDetails`
distinguishes them: a non-`Error` throw, a plain `Error`, or an
`AxiosError` with its message and optional HTTP response. -/
inductive Caught where
  | nonErrorValue : Caught
  | plainError (message : String) : Caught
  | axiosErr (message : String) (response : Option (Nat × String × JSVal)) : Caught

/-- The `status` of an axios response (axios always supplies a number;
`0` is falsy in the `if (status)` check). -/
def respStatus (r : Nat × String × JSVal) : Nat := r.1

/-- The `statusText` of an axios response (may be empty, which is falsy). -/
def respStatusText (r : Nat × String × JSVal) : String := r.2.1

/-- The parsed body `response.data` (`JSVal.undefv` when absent). -/
def respData (r : Nat × String × JSVal) : JSVal := r.2.2

/-- The `HTTP <status> <statusText>` parts pushed first (none when the
status is falsy; the status text is omitted when falsy). -/
def statusParts (r : Nat × String × JSVal) : List String :=
  if respStatus r ≠ 0 then
    [("HTTP " ++ toString (respStatus r)) ++
      (if respStatusText r ≠ "" then " " ++ respStatusText r else "")]
  else []

/-- One `_server_messages` element: `JSON.parse(msg)` then
`parsed.message || msg`, with the inner `catch` returning `msg` when the
parse fails or `parsed` is `null` (property access on `null` throws). -/
def serverMessageElem (msg : JSVal) : JSVal :=
  match jsonParse (jsToString msg) with
  | none => msg
  | some parsed =>
    match parsed with
    | .nullv => msg
    | p => let m := getField p "message"; if m.truthy then m else msg

/-- The `_server_messages` branch: parse the field as a JSON array and
join the per-element extracts with `"; "`; any throw in the `try` block
(parse failure, or `.map` on a non-array) falls back to
`String(responseData._server_messages)`. -/
def serverMessagesPart (smv : JSVal) : String :=
  match jsonParse (jsToString smv) with
  | some (.arr xs) => jsJoin "; " (xs.map serverMessageElem)
  | some _ => jsToString smv
  | none => jsToString smv

/-- The `exception` branch: split on newlines, drop blank lines, use the
last line unless it looks like a traceback header or indented frame, in
which case truncate the whole trace to 500 characters. -/
def exceptionPart (excv : JSVal) : String :=
  let exc := jsToString excv
  let lines := (exc.splitOn "\n").filter (fun l => jsTrim l ≠ "")
  match lines.getLast? with
  | some lastLine =>
    if lastLine ≠ "" ∧ ¬ lastLine.startsWith "Traceback" ∧ ¬ lastLine.startsWith "  " then
      lastLine
    else jsTake exc 500
  | none => jsTake exc 500

/-- The body-derived parts: the five-way priority chain over a truthy
`responseData` (first truthy field wins; at most one part is pushed). -/
def bodyDerivedParts (responseData : JSVal) : List String :=
  if (getField responseData "_server_messages").truthy then
    [serverMessagesPart (getField responseData "_server_messages")]
  else if (getField responseData "message").truthy then
    [jsToString (getField responseData "message")]
  else if (getField responseData "exception").truthy then
    [exceptionPart (getField responseData "exception")]
  else if (getField responseData "exc").truthy then
    [jsTake (jsToString (getField responseData "exc")) 500]
  else if (getField responseData "exc_type").truthy then
    [jsToString (getField responseData "exc_type")]
  else []

/-- Body parts guarded by `if (responseData)`. -/
def bodyParts (resp : Option (Nat × String × JSVal)) : List String :=
  match resp with
  | none => []
  | some r => if (respData r).truthy then bodyDerivedParts (respData r) else []

/-- Is `status` truthy (`axiosError.response?.status`)? -/
def statusTruthy (resp : Option (Nat × String × JSVal)) : Bool :=
  match resp with
  | none => false
  | some r => respStatus r ≠ 0

/-- `extractErrorDetails(error)` from src/client/erpnext-client.ts. -/
def extractErrorDetails (error : Caught) : String :=
  match error with
  | .nonErrorValue => "Unknown error"
  | .plainError m => m
  | .axiosErr m resp =>
    let parts := statusParts' resp ++ bodyParts resp
    let parts :=
      if parts.length = 0 ∨ (parts.length = 1 ∧ statusTruthy resp) then
        parts ++ [m]
      else parts
    joinWith " - " parts
where
  /-- `parts.push(\x60HTTP ...\x60)` under optional chaining on the response. -/
  statusParts' : Option (Nat × String × JSVal) → List String
  | none => []
  | some r => statusParts r

/-!
## ERPNext client methods (src/client/erpnext-client.ts)

Upstream HTTP requests are represented structurally (endpoint plus the
constructed parameters/payload); the network is an oracle mapping each
request to its outcome, `.ok body` being the parsed response body
`response.data`.  Each client operation also reports the list of
requests it issued, so "no upstream call was attempted" is the statement
that the list is empty.
-/

/-- One upstream HTTP request, as constructed by the client methods. -/
inductive UpReq where
  | getResource (doctype name : String)
  | listResource (doctype : String) (params : List (String × JSVal))
  | createResource (doctype : String) (payload : JSVal)
  | updateResource (doctype name : String) (payload : JSVal)
  | runReportReq (params : List (String × JSVal))
  | docTypeListPrimary
  | docTypeListSecondary
  | docTypeSchema (doctype : String)

/-- The network oracle: outcome of each upstream request. -/
def Net : Type := UpReq → Except Caught JSVal

/-- Message of a TypeError raised by the JS runtime while a client
method post-processes a response (e.g. property access on a nullish
body); the exact text is runtime-defined and no claim depends on it. -/
def runtimeTypeErrorMsg : String :=
  "TypeError while processing response"

/-- `v.length`: arrays and strings have a length; objects may carry a
`length` property; other primitives yield `undefined`. -/
def jsLengthOf (v : JSVal) : JSVal :=
  match v with
  | .arr xs => .num xs.length
  | .str s => .num s.length
  | .obj fs => lookupLast fs "length"
  | _ => .undefv

/-- A `JSON.stringify` result used as a query-parameter value. -/
def stringifyParamValue (v : JSVal) : JSVal :=
  match jsonStringify v with
  | some s => .str s
  | none => .undefv

/-- The `params` record built by `getDocList`: `fields` only when truthy
with truthy `.length`, `filters` when truthy, `limit_page_length` when
the limit is truthy. -/
def buildListParams (filters fields : JSVal) (limit : Option Int) :
    List (String × JSVal) :=
  (if fields.truthy ∧ (jsLengthOf fields).truthy then
    [("fields", stringifyParamValue fields)]
   else []) ++
  (if filters.truthy then [("filters", stringifyParamValue filters)] else []) ++
  (match limit with
   | some n => if n ≠ 0 then [("limit_page_length", JSVal.num n)] else []
   | none => [])

/-- `getDocument(doctype, name)`: fetch one record; return
`response.data.data`; wrap any failure with the operation prefix. -/
def clientGetDocument (doctype name : String) (net : Net) :
    Except String JSVal × List UpReq :=
  let req := UpReq.getResource doctype name
  match net req with
  | .ok body =>
    match getProp body "data" with
    | .ok v => (.ok v, [req])
    | .error () =>
      (.error ("Failed to get " ++ doctype ++ " " ++ name ++ ": " ++
        extractErrorDetails (.plainError runtimeTypeErrorMsg)), [req])
  | .error c =>
    (.error ("Failed to get " ++ doctype ++ " " ++ name ++ ": " ++
      extractErrorDetails c), [req])

/-- `getDocList(doctype, filters?, fields?, limit?)`. -/
def clientGetDocList (doctype : String) (filters fields : JSVal)
    (limit : Option Int) (net : Net) : Except String JSVal × List UpReq :=
  let req := UpReq.listResource doctype (buildListParams filters fields limit)
  match net req with
  | .ok body =>
    match getProp body "data" with
    | .ok v => (.ok v, [req])
    | .error () =>
      (.error ("Failed to get " ++ doctype ++ " list: " ++
        extractErrorDetails (.plainError runtimeTypeErrorMsg)), [req])
  | .error c =>
    (.error ("Failed to get " ++ doctype ++ " list: " ++ extractErrorDetails c),
      [req])

/-- `createDocument(doctype, doc)`: POST `{ data: doc }`. -/
def clientCreateDocument (doctype : String) (doc : JSVal) (net : Net) :
    Except String JSVal × List UpReq :=
  let req := UpReq.createResource doctype (JSVal.obj [("data", doc)])
  match net req with
  | .ok body =>
    match getProp body "data" with
    | .ok v => (.ok v, [req])
    | .error () =>
      (.error ("Failed to create " ++ doctype ++ ": " ++
        extractErrorDetails (.plainError runtimeTypeErrorMsg)), [req])
  | .error c =>
    (.error ("Failed to create " ++ doctype ++ ": " ++ extractErrorDetails c),
      [req])

/-- `updateDocument(doctype, name, doc)`: PUT `{ data: doc }`. -/
def clientUpdateDocument (doctype name : String) (doc : JSVal) (net : Net) :
    Except String JSVal × List UpReq :=
  let req := UpReq.updateResource doctype name (JSVal.obj [("data", doc)])
  match net req with
  | .ok body =>
    match getProp body "data" with
    | .ok v => (.ok v, [req])
    | .error () =>
      (.error ("Failed to update " ++ doctype ++ " " ++ name ++ ": " ++
        extractErrorDetails (.plainError runtimeTypeErrorMsg)), [req])
  | .error c =>
    (.error ("Failed to update " ++ doctype ++ " " ++ name ++ ": " ++
      extractErrorDetails c), [req])

/-- `runReport(reportName, filters?)`: returns `response.data.message`;
an absent `filters` parameter is sent as `undefined` (axios omits it). -/
def clientRunReport (reportName : String) (filters : JSVal) (net : Net) :
    Except String JSVal × List UpReq :=
  let req := UpReq.runReportReq
    [("report_name", JSVal.str reportName),
     ("filters", if filters.truthy then stringifyParamValue filters else .undefv)]
  match net req with
  | .ok body =>
    match getProp body "message" with
    | .ok v => (.ok v, [req])
    | .error () =>
      (.error ("Failed to run report " ++ reportName ++ ": " ++
        extractErrorDetails (.plainError runtimeTypeErrorMsg)), [req])
  | .error c =>
    (.error ("Failed to run report " ++ reportName ++ ": " ++
      extractErrorDetails c), [req])

/-- The fixed built-in fallback list of common DocTypes. -/
def commonDocTypes : List JSVal :=
  [.str "Customer", .str "Supplier", .str "Item", .str "Sales Order",
   .str "Purchase Order", .str "Sales Invoice", .str "Purchase Invoice",
   .str "Employee", .str "Lead", .str "Opportunity", .str "Quotation",
   .str "Payment Entry", .str "Journal Entry", .str "Stock Entry"]

/-- The secondary tier of `getAllDocTypes`: the search endpoint, mapping
out the `value` fields; on any failure (HTTP or a throw while mapping)
return the built-in list.  Failures are logged, not thrown. -/
def docTypesSecondary (net : Net) : List JSVal × List UpReq :=
  match net .docTypeListSecondary with
  | .ok body =>
    if body.truthy ∧ (getField body "results").truthy then
      match getField body "results" with
      | .arr items =>
        match items.mapM (fun it => getProp it "value") with
        | .ok vals => (vals, [.docTypeListSecondary])
        | .error () => (commonDocTypes, [.docTypeListSecondary])
      | _ => (commonDocTypes, [.docTypeListSecondary])
    else ([], [.docTypeListSecondary])
  | .error _ => (commonDocTypes, [.docTypeListSecondary])

/-- `getAllDocTypes()`: primary schema listing (page size 500, `name`
fields) with the secondary search endpoint as fallback and the built-in
list as last resort; never throws. -/
def getAllDocTypes (net : Net) : List JSVal × List UpReq :=
  match net .docTypeListPrimary with
  | .ok body =>
    if body.truthy ∧ (getField body "data").truthy then
      match getField body "data" with
      | .arr items =>
        match items.mapM (fun it => getProp it "name") with
        | .ok names => (names, [.docTypeListPrimary])
        | .error () =>
          let (r, log) := docTypesSecondary net
          (r, .docTypeListPrimary :: log)
      | _ =>
        let (r, log) := docTypesSecondary net
        (r, .docTypeListPrimary :: log)
    else ([], [.docTypeListPrimary])
  | .error _ =>
    let (r, log) := docTypesSecondary net
    (r, .docTypeListPrimary :: log)

/-- The six-key projection of one schema field record, with `reqd`
defaulting to `0` and `options`/`description` defaulting to `null` on
falsy values; property access on a nullish record throws. -/
def projectField (field : JSVal) : Except Unit JSVal :=
  match field with
  | .undefv => .error ()
  | .nullv => .error ()
  | f =>
    .ok (.obj
      [("fieldname", getField f "fieldname"),
       ("fieldtype", getField f "fieldtype"),
       ("label", getField f "label"),
       ("reqd", if (getField f "reqd").truthy then getField f "reqd" else .num 0),
       ("options",
         if (getField f "options").truthy then getField f "options" else .nullv),
       ("description",
         if (getField f "description").truthy then getField f "description"
         else .nullv)])

/-- `getDocTypeFields(doctype)`: fetch the schema record (the URL embeds
`encodeURIComponent(doctype)`; the structured request carries the raw
name) and project each field; an absent fields list yields `[]` without
throwing; failures are rethrown with the operation prefix. -/
def getDocTypeFields (doctype : String) (net : Net) :
    Except String (List JSVal) × List UpReq :=
  let req := UpReq.docTypeSchema doctype
  match net req with
  | .ok body =>
    if body.truthy ∧ (getField body "data").truthy ∧
        (getField (getField body "data") "fields").truthy then
      match getField (getField body "data") "fields" with
      | .arr fs =>
        match fs.mapM projectField with
        | .ok ps => (.ok ps, [req])
        | .error () =>
          (.error ("Failed to get fields for " ++ doctype ++ ": " ++
            extractErrorDetails (.plainError runtimeTypeErrorMsg)), [req])
      | _ =>
        (.error ("Failed to get fields for " ++ doctype ++ ": " ++
          extractErrorDetails (.plainError runtimeTypeErrorMsg)), [req])
    else (.ok [], [req])
  | .error c =>
    (.error ("Failed to get fields for " ++ doctype ++ ": " ++
      extractErrorDetails c), [req])

/-!
## Tool handlers (src/handlers/tool-handlers.ts)
-/

/-- One `{type: "text", text}` content item. -/
structure TextContent where
  type : String
  text : String

/-- The uniform tool-result envelope; an absent `isError` is `false`. -/
structure CallToolResult where
  content : List TextContent
  isError : Bool

/-- `errorResponse(message)`. -/
def errorResponse (message : String) : CallToolResult :=
  ⟨[⟨"text", message⟩], true⟩

/-- `successResponse(text)`. -/
def successResponse (text : String) : CallToolResult :=
  ⟨[⟨"text", text⟩], false⟩

/-- The fixed authentication-failure message. -/
def notAuthenticatedMsg : String :=
  "Not authenticated with ERPNext. Please configure API key authentication."

/-- `checkAuth(erpnext)`: the error result when unauthenticated. -/
def checkAuth (authenticated : Bool) : Option CallToolResult :=
  if ¬ authenticated then some (errorResponse notAuthenticatedMsg) else none

/-- `JSON.stringify(v, null, 2)` interpolated into a text slot (an
`undefined` result renders as the string `undefined`). -/
def prettyText (v : JSVal) : String :=
  match jsonStringifyPretty v with
  | some s => s
  | none => "undefined"

/-- `handleGetDocuments(args, erpnext, logger)`: auth precheck, then
`doctype` via `validateIdentifier` and `limit` via `validatePositiveInt`;
`fields` and `filters` are read off the arguments with plain casts and
passed through unvalidated. -/
def handleGetDocuments (authenticated : Bool) (args : JSVal) (net : Net) :
    CallToolResult × List UpReq :=
  match checkAuth authenticated with
  | some authError => (authError, [])
  | none =>
    match validateIdentifier (optGet args "doctype") "doctype" with
    | .error msg => (errorResponse ("Failed to get documents: " ++ msg), [])
    | .ok doctype =>
      let fields := optGet args "fields"
      let filters := optGet args "filters"
      match validatePositiveInt (optGet args "limit") "limit" with
      | .error msg => (errorResponse ("Failed to get documents: " ++ msg), [])
      | .ok limit =>
        match clientGetDocList doctype filters fields limit net with
        | (.ok documents, log) => (successResponse (prettyText documents), log)
        | (.error msg, log) =>
          (errorResponse ("Failed to get documents: " ++ msg), log)

/-- `handleCreateDocument(args, erpnext, logger)`. -/
def handleCreateDocument (authenticated : Bool) (args : JSVal) (net : Net) :
    CallToolResult × List UpReq :=
  match checkAuth authenticated with
  | some authError => (authError, [])
  | none =>
    match validateIdentifier (optGet args "doctype") "doctype" with
    | .error msg => (errorResponse ("Failed to create document: " ++ msg), [])
    | .ok doctype =>
      match validateObject (optGet args "data") "data" with
      | .error msg => (errorResponse ("Failed to create document: " ++ msg), [])
      | .ok data =>
        match clientCreateDocument doctype data net with
        | (.ok result, log) =>
          (match getProp result "name" with
           | .ok nm =>
             (successResponse ("Created " ++ doctype ++ ": " ++ jsToString nm ++
               "\n\n" ++ prettyText result), log)
           | .error () =>
             (errorResponse ("Failed to create document: " ++
               runtimeTypeErrorMsg), log))
        | (.error msg, log) =>
          (errorResponse ("Failed to create document: " ++ msg), log)

/-- `handleUpdateDocument(args, erpnext, logger)`. -/
def handleUpdateDocument (authenticated : Bool) (args : JSVal) (net : Net) :
    CallToolResult × List UpReq :=
  match checkAuth authenticated with
  | some authError => (authError, [])
  | none =>
    match validateIdentifier (optGet args "doctype") "doctype" with
    | .error msg => (errorResponse ("Failed to update document: " ++ msg), [])
    | .ok doctype =>
      match validateIdentifier (optGet args "name") "name" with
      | .error msg => (errorResponse ("Failed to update document: " ++ msg), [])
      | .ok name =>
        match validateObject (optGet args "data") "data" with
        | .error msg =>
          (errorResponse ("Failed to update document: " ++ msg), [])
        | .ok data =>
          match clientUpdateDocument doctype name data net with
          | (.ok result, log) =>
            (successResponse ("Updated " ++ doctype ++ " " ++ name ++ "\n\n" ++
              prettyText result), log)
          | (.error msg, log) =>
            (errorResponse ("Failed to update document: " ++ msg), log)

/-- `handleRunReport(args, erpnext, logger)`: `filters` is passed through
with a plain cast, unvalidated. -/
def handleRunReport (authenticated : Bool) (args : JSVal) (net : Net) :
    CallToolResult × List UpReq :=
  match checkAuth authenticated with
  | some authError => (authError, [])
  | none =>
    match validateIdentifier (optGet args "report_name") "report_name" with
    | .error msg => (errorResponse ("Failed to run report: " ++ msg), [])
    | .ok reportName =>
      let filters := optGet args "filters"
      match clientRunReport reportName filters net with
      | (.ok result, log) => (successResponse (prettyText result), log)
      | (.error msg, log) => (errorResponse ("Failed to run report: " ++ msg), log)

/-- `handleGetDocTypeFields(args, erpnext, logger)`. -/
def handleGetDocTypeFields (authenticated : Bool) (args : JSVal) (net : Net) :
    CallToolResult × List UpReq :=
  match checkAuth authenticated with
  | some authError => (authError, [])
  | none =>
    match validateIdentifier (optGet args "doctype") "doctype" with
    | .error msg => (errorResponse ("Failed to get fields: " ++ msg), [])
    | .ok doctype =>
      match getDocTypeFields doctype net with
      | (.ok fields, log) => (successResponse (prettyText (.arr fields)), log)
      | (.error msg, log) => (errorResponse ("Failed to get fields: " ++ msg), log)

/-- `handleGetDocTypes(erpnext, logger)`: `getAllDocTypes` never throws,
so the catch branch is unreachable. -/
def handleGetDocTypes (authenticated : Bool) (net : Net) :
    CallToolResult × List UpReq :=
  match checkAuth authenticated with
  | some authError => (authError, [])
  | none =>
    let (doctypes, log) := getAllDocTypes net
    (successResponse (prettyText (.arr doctypes)), log)

/-- A protocol-level MCP error (`McpError`), distinct from an
error-flagged tool result. -/
inductive McpErr where
  | methodNotFound (message : String)
  | invalidRequest (message : String)
  | internalError (message : String)

/-- The `CallToolRequestSchema` handler's dispatch on the tool name;
an unknown name throws `McpError(MethodNotFound, ...)`. -/
def callToolDispatch (authenticated : Bool) (name : String) (args : JSVal)
    (net : Net) : Except McpErr (CallToolResult × List UpReq) :=
  if name = "get_documents" then .ok (handleGetDocuments authenticated args net)
  else if name = "create_document" then
    .ok (handleCreateDocument authenticated args net)
  else if name = "update_document" then
    .ok (handleUpdateDocument authenticated args net)
  else if name = "run_report" then .ok (handleRunReport authenticated args net)
  else if name = "get_doctype_fields" then
    .ok (handleGetDocTypeFields authenticated args net)
  else if name = "get_doctypes" then .ok (handleGetDocTypes authenticated net)
  else .error (.methodNotFound ("Unknown tool: " ++ name))

/-- The six registered tool names. -/
def knownToolNames : List String :=
  ["get_doctypes", "get_doctype_fields", "get_documents", "create_document",
   "update_document", "run_report"]

/-!
## Resource read handler (src/handlers/resource-handlers.ts)
-/

/-- The regex match `uri.match(/^erpnext:\/\/([^\/]+)\/(.+)$/)`: the
first group takes the non-`/` run after the scheme, then a `/`, then a
nonempty remainder free of line terminators (`.` excludes them). -/
def matchDocumentUri (uri : String) : Option (String × String) :=
  if uri.startsWith "erpnext://" then
    let rest := (uri.data.drop 10)
    let d := rest.takeWhile (fun c => c ≠ '/')
    let after := rest.drop d.length
    match after with
    | '/' :: tail =>
      if d ≠ [] ∧ tail ≠ [] ∧ tail.all (fun c => c ≠ '\n' ∧ c ≠ '\r') then
        some (String.mk d, String.mk tail)
      else none
    | _ => none
  else none

/-- `decodeURIComponent` on the ASCII fragment: `%XX` with a hex value
below `0x80` decodes to that character; a malformed escape (or a lead
byte of a multi-byte UTF-8 sequence, unmodelled) throws `URIError`. -/
def decodeURIComponentAux : Nat → List Char → Option (List Char)
  | 0, _ => none
  | _ + 1, [] => some []
  | fuel + 1, c :: cs =>
    if c = '%' then
      match cs with
      | h1 :: h2 :: rest =>
        match hexDigitVal h1, hexDigitVal h2 with
        | some a, some b =>
          if a * 16 + b < 128 then
            (decodeURIComponentAux fuel rest).map (Char.ofNat (a * 16 + b) :: ·)
          else none
        | _, _ => none
      | _ => none
    else (decodeURIComponentAux fuel cs).map (c :: ·)

/-- `decodeURIComponent(s)`; `none` models a thrown `URIError`. -/
def decodeURIComponent (s : String) : Option String :=
  (decodeURIComponentAux (s.data.length + 1) s.data).map String.mk

/-- The `ReadResourceRequestSchema` handler: authentication is checked
first and raises a protocol-level `InvalidRequest` error; then the
special `erpnext://DocTypes` URI, then the document template, each
failure surfacing as a protocol-level error; a falsy result yields the
invalid-URI error. -/
def readResource (authenticated : Bool) (uri : String) (net : Net) :
    Except McpErr String × List UpReq :=
  if ¬ authenticated then
    (.error (.invalidRequest notAuthenticatedMsg), [])
  else if uri = "erpnext://DocTypes" then
    let (doctypes, log) := getAllDocTypes net
    (.ok (prettyText (.obj [("doctypes", .arr doctypes)])), log)
  else
    match matchDocumentUri uri with
    | some (dEnc, nEnc) =>
      match decodeURIComponent dEnc, decodeURIComponent nEnc with
      | some doctype, some name =>
        (match clientGetDocument doctype name net with
         | (.ok doc, log) =>
           if doc.truthy then (.ok (prettyText doc), log)
           else (.error (.invalidRequest ("Invalid ERPNext resource URI: " ++ uri)), log)
         | (.error msg, log) =>
           (.error (.invalidRequest ("Failed to fetch " ++ doctype ++ " " ++
             name ++ ": " ++ msg)), log))
      | _, _ => (.error (.internalError "URIError"), [])
    | none =>
      (.error (.invalidRequest ("Invalid ERPNext resource URI: " ++ uri)), [])

/-!
## HTTP transport session routing (src/http-server.ts)

The process-wide `transports` record is a map from session id to a
transport instance (abstracted as a number); the routing of the three
`/mcp` endpoints is translated branch for branch.  A present but empty
session-id header would be falsy in JS; `Option String` models
present-and-nonempty versus absent.
-/

/-- The `transports` map. -/
def SessionMap : Type := List (String × Nat)

/-- `transports[sessionId]` lookup. -/
def sessionLookup (m : SessionMap) (sid : String) : Option Nat :=
  (m.find? (fun p => p.1 == sid)).map (fun p => p.2)

/-- Outcome of a `POST /mcp` request. -/
inductive PostOutcome where
  | handled (transport : Nat)
  | initialized (newSessionId : String) (transport : Nat)
  | badRequest (httpStatus : Nat) (jsonRpcCode : Int) (message : String)

/-- `app.post("/mcp")`: reuse a known session, create on an
initialization request without a session id (the
`onsessioninitialized` callback registers the fresh id), otherwise fail
with HTTP 400 and JSON-RPC code `-32000`. -/
def postMcp (m : SessionMap) (sessionId : Option String) (isInit : Bool)
    (freshSid : String) (freshTransport : Nat) : PostOutcome × SessionMap :=
  match sessionId with
  | some sid =>
    match sessionLookup m sid with
    | some t => (.handled t, m)
    | none =>
      (.badRequest 400 (-32000) "Bad Request: No valid session ID provided", m)
  | none =>
    if isInit then
      (.initialized freshSid freshTransport, (freshSid, freshTransport) :: m)
    else
      (.badRequest 400 (-32000) "Bad Request: No valid session ID provided", m)

/-- Outcome of a `GET /mcp` or `DELETE /mcp` request. -/
inductive StreamOutcome where
  | handled (transport : Nat)
  | badRequest (httpStatus : Nat) (body : String)

/-- `app.get("/mcp")`: requires a known session id; 400 plain text
otherwise; the map is never changed. -/
def getMcp (m : SessionMap) (sessionId : Option String) :
    StreamOutcome × SessionMap :=
  match sessionId with
  | none => (.badRequest 400 "Invalid or missing session ID", m)
  | some sid =>
    match sessionLookup m sid with
    | none => (.badRequest 400 "Invalid or missing session ID", m)
    | some t => (.handled t, m)

/-- `app.delete("/mcp")`: requires a known session id; 400 plain text
otherwise; on success the SDK terminates the session and the
`onsessionclosed` callback removes the mapping. -/
def deleteMcp (m : SessionMap) (sessionId : Option String) :
    StreamOutcome × SessionMap :=
  match sessionId with
  | none => (.badRequest 400 "Invalid or missing session ID", m)
  | some sid =>
    match sessionLookup m sid with
    | none => (.badRequest 400 "Invalid or missing session ID", m)
    | some t => (.handled t, m.filter (fun p => p.1 ≠ sid))

/-- Does `s` start with `pre`? (boolean, list-based). -/
def strStartsWith (s pre : String) : Bool :=
  listStartsWith pre.data s.data

/-- Is the session id absent, or present but not in the map?  (An empty
header value would be falsy in JS and behaves like an absent one.) -/
def sessionAbsent (m : SessionMap) (sessionId : Option String) : Prop :=
  match sessionId with
  | none => True
  | some sid => sessionLookup m sid = none

/-- A network on which every upstream request fails (connection refused,
say): used to instantiate theorems at a concrete oracle. -/
def emptyNet : Net :=
  fun _ => .error (.plainError "connect ECONNREFUSED")

/-- The `HTTP <status> <statusText>` line (status text omitted when
falsy), for stating what a normalized message begins with. -/
def statusLine (r : Nat × String × JSVal) : String :=
  "HTTP " ++ toString (respStatus r) ++
    (if respStatusText r ≠ "" then " " ++ respStatusText r else "")

/-!
## Theorems
-/

set_option maxRecDepth 100000

/-- Appending to a fixed string on the left is injective. -/
theorem strAppend_left_cancel {a b c : String} (h : a ++ b = a ++ c) : b = c := by
  have hd := congrArg String.data h
  simp [String.data_append] at hd
  exact String.ext hd

/-- C5, amended: the `TooLong` check fires on exactly the inputs whose
**trimmed** string exceeds 140 characters (the length check runs after
trimming), and an allowed-character string of length exactly 140 that is
its own trim succeeds. -/
theorem validateIdentifier_tooLong_trimmed (v : JSVal) (fn : String) :
    (validateIdentifier v fn = .error (fn ++ " exceeds maximum length of 140 characters")
      ↔ isNullish v = false ∧ (jsTrim (jsToString v)).length > 140)
    ∧ (∀ s : String, s.length = 140 → s.data.all allowedIdentChar = true → jsTrim s = s →
        validateIdentifier (.str s) fn = .ok s) := by
  constructor
  · constructor
    · intro h
      simp only [validateIdentifier] at h
      split_ifs at h with h1 h2 h3 h4
      · exact absurd (strAppend_left_cancel (Except.error.inj h)) (by decide)
      · exact absurd (strAppend_left_cancel (Except.error.inj h)) (by decide)
      · exact ⟨Bool.of_not_eq_true h1 |>.symm ▸ rfl, h3⟩
      · exact absurd (strAppend_left_cancel (Except.error.inj h)) (by decide)
    · rintro ⟨h1, h2⟩
      simp only [validateIdentifier, h1, Bool.false_eq_true, if_false]
      rw [if_neg (by omega), if_pos h2]
  · intro s hlen hall htrim
    have hdata : s.data ≠ [] := by
      intro hnil
      have : s.length = 0 := by simp [String.length, hnil]
      omega
    simp only [validateIdentifier, isNullish, Bool.false_eq_true, if_false]
    rw [show jsToString (JSVal.str s) = s from rfl, htrim]
    rw [if_neg (by omega), if_neg (by omega)]
    rw [if_neg (by simp [validIdentifierPattern, hdata, hall])]

/-- C5, counterexample to the claim as stated: a 141-character input
(leading space plus 140 `a`s) does **not** fail with the
exceeds-maximum-length error — `validateIdentifier` trims first and
accepts it. -/
theorem validateIdentifier_len141_accepted :
    (" " ++ String.mk (List.replicate 140 'a')).length = 141 ∧
    validateIdentifier (.str (" " ++ String.mk (List.replicate 140 'a'))) "doctype"
      = .ok (String.mk (List.replicate 140 'a')) :=
  ⟨by decide, rfl⟩

/-- C5 witness: the amended theorem applied at an input of trimmed
length 141 (which fails) and at an allowed 140-character string (which
succeeds). -/
theorem validateIdentifier_tooLong_trimmed_witness :
    validateIdentifier (.str (String.mk (List.replicate 141 'a'))) "doctype"
      = .error ("doctype exceeds maximum length of 140 characters")
    ∧ validateIdentifier (.str (String.mk (List.replicate 140 'a'))) "doctype"
      = .ok (String.mk (List.replicate 140 'a')) :=
  ⟨(validateIdentifier_tooLong_trimmed (.str (String.mk (List.replicate 141 'a'))) "doctype").1.mpr
      ⟨rfl, by decide⟩,
    (validateIdentifier_tooLong_trimmed (.str (String.mk (List.replicate 140 'a'))) "doctype").2
      (String.mk (List.replicate 140 'a')) (by decide) (by decide) (by decide)⟩

/-- A string is empty iff its character list is. -/
theorem str_eq_empty_iff {s : String} : s = "" ↔ s.data = [] := by
  cases s
  simp [String.ext_iff]

/-- C6, amended: when the **trimmed** value is nonempty, within the
length bound, and contains a character outside `[A-Za-z0-9_\- ]`,
`validateIdentifier` fails with the invalid-characters error; and every
successful result is the trimmed string made only of allowed
characters. -/
theorem validateIdentifier_invalidChars_trimmed :
    (∀ (s fn : String), jsTrim s ≠ "" → (jsTrim s).length ≤ 140 →
        (jsTrim s).data.all allowedIdentChar = false →
        validateIdentifier (.str s) fn = .error (fn ++ " contains invalid characters. Only alphanumeric characters, spaces, hyphens, and underscores are allowed."))
    ∧ (∀ (s fn r : String), validateIdentifier (.str s) fn = .ok r →
        r = jsTrim s ∧ r.data.all allowedIdentChar = true) := by
  constructor
  · intro s fn h1 h2 h3
    have hdata : (jsTrim s).data ≠ [] := fun hnil => h1 (str_eq_empty_iff.mpr hnil)
    simp only [validateIdentifier, isNullish, Bool.false_eq_true, if_false]
    rw [show jsToString (JSVal.str s) = s from rfl]
    rw [if_neg (by simp only [String.length]; exact fun hh => hdata (List.length_eq_zero.mp hh))]
    rw [if_neg (by omega)]
    rw [if_pos (by simp [validIdentifierPattern, h3])]
  · intro s fn r h
    simp only [validateIdentifier] at h
    split_ifs at h with h1 h2 h3 h4
    have he : jsTrim (jsToString (JSVal.str s)) = r := Except.ok.inj h
    subst he
    exact ⟨rfl, ((Bool.and_eq_true _ _).mp h4).2⟩

/-- C6, counterexample to the claim as stated: the input `"\ta"`
contains a character outside the allowed class, yet `validateIdentifier`
accepts it (the tab is removed by the trim that runs before the
character-class check). -/
theorem validateIdentifier_tab_accepted :
    ("\ta".data.all allowedIdentChar = false) ∧
    validateIdentifier (.str "\ta") "doctype" = .ok "a" :=
  ⟨by decide, rfl⟩

/-- C6 witness: the amended theorem applied at `"a!"` (rejected with the
invalid-characters error) and at the successful `" Sales Order "`. -/
theorem validateIdentifier_invalidChars_witness :
    validateIdentifier (.str "a!") "doctype"
      = .error ("doctype contains invalid characters. Only alphanumeric characters, spaces, hyphens, and underscores are allowed.")
    ∧ ("Sales Order" = jsTrim " Sales Order "
        ∧ "Sales Order".data.all allowedIdentChar = true) :=
  ⟨validateIdentifier_invalidChars_trimmed.1 "a!" "doctype" (by decide) (by decide) (by decide),
    validateIdentifier_invalidChars_trimmed.2 " Sales Order " "doctype" "Sales Order" rfl⟩

/-- C9: `validateIdentifier` coerces non-nullish, non-string inputs with
`String(...)` before any check — the number `42` is accepted as `"42"`,
and every value whose coerced, trimmed string is nonempty, within 140
characters, and inside the allowed class succeeds with that string. -/
theorem validateIdentifier_coercion (v : JSVal) (fn : String) :
    validateIdentifier (.num 42) "doctype" = .ok "42"
    ∧ (isNullish v = false → jsTrim (jsToString v) ≠ "" →
        (jsTrim (jsToString v)).length ≤ 140 →
        (jsTrim (jsToString v)).data.all allowedIdentChar = true →
        validateIdentifier v fn = .ok (jsTrim (jsToString v))) := by
  refine ⟨rfl, ?_⟩
  intro h1 h2 h3 h4
  have hdata : (jsTrim (jsToString v)).data ≠ [] := fun hnil => h2 (str_eq_empty_iff.mpr hnil)
  simp only [validateIdentifier, h1, Bool.false_eq_true, if_false]
  rw [if_neg (by simp only [String.length]; exact fun hh => hdata (List.length_eq_zero.mp hh))]
  rw [if_neg (by omega)]
  rw [if_neg (by simp [validIdentifierPattern, hdata, h4])]

/-- C9 witness: the coercion theorem applied to the boolean `true`,
which is coerced to the string `"true"` and accepted. -/
theorem validateIdentifier_coercion_witness :
    validateIdentifier (.bool true) "doctype" = .ok "true" :=
  (validateIdentifier_coercion (.bool true) "doctype").2 rfl (by decide) (by decide) (by decide)

/-- C4: every non-initializing request to `POST /mcp`, `GET /mcp` or
`DELETE /mcp` carrying an unknown or missing session id fails with HTTP
400 — for POST with the JSON-RPC error code `-32000` — and the session
map is returned unchanged. -/
theorem httpSession_unknown_or_missing_400 (m : SessionMap)
    (sessionId : Option String) (isInit : Bool) (freshSid : String)
    (freshTransport : Nat) (habs : sessionAbsent m sessionId) :
    (isInit = false →
      postMcp m sessionId isInit freshSid freshTransport
        = (.badRequest 400 (-32000) "Bad Request: No valid session ID provided", m))
    ∧ getMcp m sessionId = (.badRequest 400 "Invalid or missing session ID", m)
    ∧ deleteMcp m sessionId = (.badRequest 400 "Invalid or missing session ID", m) := by
  cases sessionId with
  | none =>
    exact ⟨fun hi => by simp [postMcp, hi], rfl, rfl⟩
  | some sid =>
    have h : sessionLookup m sid = none := habs
    exact ⟨fun _ => by simp [postMcp, h], by simp [getMcp, h], by simp [deleteMcp, h]⟩

/-- C4 witness: a non-initializing POST, a GET and a DELETE carrying the
unknown session id `"xyz"` against a map holding only `"abc"` all yield
400 (POST with code `-32000`) and leave the map unchanged. -/
theorem httpSession_unknown_or_missing_400_witness :
    postMcp [("abc", 0)] (some "xyz") false "fresh" 1
      = (.badRequest 400 (-32000) "Bad Request: No valid session ID provided", [("abc", 0)])
    ∧ getMcp [("abc", 0)] (some "xyz")
      = (.badRequest 400 "Invalid or missing session ID", [("abc", 0)])
    ∧ deleteMcp [("abc", 0)] (some "xyz")
      = (.badRequest 400 "Invalid or missing session ID", [("abc", 0)]) :=
  by
  have h := httpSession_unknown_or_missing_400 [("abc", 0)] (some "xyz") false "fresh" 1 rfl
  exact ⟨h.1 rfl, h.2.1, h.2.2⟩

/-- A list starts with itself followed by anything. -/
theorem listStartsWith_app (p q : List Char) : listStartsWith p (p ++ q) = true := by
  induction p with
  | nil => rfl
  | cons c cs ih => simp [listStartsWith, ih]

/-- A string starts with its own left append part. -/
theorem strStartsWith_append (a b : String) : strStartsWith (a ++ b) a = true := by
  simp [strStartsWith, String.data_append, listStartsWith_app]

/-- Joining a nonempty list of parts yields the head followed by some
tail. -/
theorem joinWith_cons_eq (sep x : String) (xs : List String) :
    ∃ t, joinWith sep (x :: xs) = x ++ t := by
  cases xs with
  | nil => exact ⟨"", by simp [joinWith]⟩
  | cons y ys =>
    exact ⟨sep ++ joinWith sep (y :: ys), by simp [joinWith, String.append_assoc]⟩

/-- With a truthy status the status parts are the single status line. -/
theorem statusParts_eq_line (r : Nat × String × JSVal) (hst : respStatus r ≠ 0) :
    statusParts r = [statusLine r] := by
  simp [statusParts, statusLine, hst, String.append_assoc]

/-- With a truthy status the normalized message is the join of the
status line and some further parts. -/
theorem extract_axios_head (m : String) (r : Nat × String × JSVal)
    (hst : respStatus r ≠ 0) :
    ∃ rest, extractErrorDetails (.axiosErr m (some r))
      = joinWith " - " (statusLine r :: rest) := by
  simp only [extractErrorDetails, extractErrorDetails.statusParts',
    statusParts_eq_line r hst, List.singleton_append]
  split
  · exact ⟨bodyParts (some r) ++ [m], by rw [List.cons_append]⟩
  · exact ⟨bodyParts (some r), rfl⟩

/-- C3: the error normalizer's fallback structure — no HTTP response
gives the generic message (or `"Unknown error"` for a non-`Error`
value); a truthy status makes the output begin with the
`HTTP <status> <statusText>` line (text omitted when absent); a falsy
body appends the failure's own message after `" - "`; an HTTP 404 with
no parseable body starts with `"HTTP 404"`. -/
theorem extractErrorDetails_fallback_shape (m stx : String) (st : Nat) (d : JSVal) :
    extractErrorDetails .nonErrorValue = "Unknown error"
    ∧ extractErrorDetails (.plainError m) = m
    ∧ extractErrorDetails (.axiosErr m none) = m
    ∧ (st ≠ 0 → ∃ t, extractErrorDetails (.axiosErr m (some (st, stx, d)))
        = statusLine (st, stx, d) ++ t)
    ∧ (st ≠ 0 → d.truthy = false →
        extractErrorDetails (.axiosErr m (some (st, stx, d)))
          = statusLine (st, stx, d) ++ " - " ++ m)
    ∧ strStartsWith
        (extractErrorDetails (.axiosErr "Request failed with status code 404"
          (some (404, "", .undefv)))) "HTTP 404" = true := by
  refine ⟨rfl, rfl, rfl, ?_, ?_, by decide⟩
  · intro hst
    obtain ⟨rest, hrest⟩ := extract_axios_head m (st, stx, d) hst
    obtain ⟨t, ht⟩ := joinWith_cons_eq " - " (statusLine (st, stx, d)) rest
    exact ⟨t, by rw [hrest, ht]⟩
  · intro hst hd
    have hbody : bodyParts (some (st, stx, d)) = [] := by
      simp [bodyParts, respData, hd]
    simp only [extractErrorDetails, extractErrorDetails.statusParts',
      statusParts_eq_line (st, stx, d) hst, hbody, List.singleton_append,
      List.append_nil]
    rw [if_pos]
    · simp [joinWith, String.append_assoc]
    · exact Or.inr ⟨rfl, by simp [statusTruthy, respStatus] at hst ⊢; exact hst⟩

/-- C3 witness: the fallback-shape theorem applied to an HTTP 500 with
an unparseable (absent) body: the output is the status line, `" - "`,
and the failure's own generic message. -/
theorem extractErrorDetails_fallback_shape_witness :
    extractErrorDetails (.axiosErr "Request failed with status code 500"
        (some (500, "Internal Server Error", .undefv)))
      = statusLine (500, "Internal Server Error", .undefv) ++ " - " ++
          "Request failed with status code 500" :=
  (extractErrorDetails_fallback_shape "Request failed with status code 500"
    "Internal Server Error" 500 .undefv).2.2.2.2.1 (by decide) rfl

/-- C2: the body inspection follows the strict priority
`_server_messages`, `message`, `exception`, `exc`, `exc_type` (first
truthy field wins, at most one part results); the `_server_messages`
branch parses the field as a JSON array whose elements each yield their
inner `message` value when they parse to a non-null value with a truthy
`message`, joins the extracts with `"; "`, and falls back to the raw
stringified field when parsing fails at any level; on the body
`{_server_messages: "[\"{\\\"message\\\": \\\"Name is required\\\"}\"]"}`
the normalized message contains `"Name is required"`. -/
theorem extractErrorDetails_serverMessages (fs : List (String × JSVal))
    (smv w msgv pv : JSVal) (xs : List JSVal) :
    ((lookupLast fs "_server_messages").truthy = true →
      bodyDerivedParts (.obj fs) = [serverMessagesPart (lookupLast fs "_server_messages")])
    ∧ ((lookupLast fs "_server_messages").truthy = false →
        (lookupLast fs "message").truthy = true →
        bodyDerivedParts (.obj fs) = [jsToString (lookupLast fs "message")])
    ∧ ((lookupLast fs "_server_messages").truthy = false →
        (lookupLast fs "message").truthy = false →
        (lookupLast fs "exception").truthy = true →
        bodyDerivedParts (.obj fs) = [exceptionPart (lookupLast fs "exception")])
    ∧ ((lookupLast fs "_server_messages").truthy = false →
        (lookupLast fs "message").truthy = false →
        (lookupLast fs "exception").truthy = false →
        (lookupLast fs "exc").truthy = true →
        bodyDerivedParts (.obj fs) = [jsTake (jsToString (lookupLast fs "exc")) 500])
    ∧ ((lookupLast fs "_server_messages").truthy = false →
        (lookupLast fs "message").truthy = false →
        (lookupLast fs "exception").truthy = false →
        (lookupLast fs "exc").truthy = false →
        (lookupLast fs "exc_type").truthy = true →
        bodyDerivedParts (.obj fs) = [jsToString (lookupLast fs "exc_type")])
    ∧ ((lookupLast fs "_server_messages").truthy = false →
        (lookupLast fs "message").truthy = false →
        (lookupLast fs "exception").truthy = false →
        (lookupLast fs "exc").truthy = false →
        (lookupLast fs "exc_type").truthy = false →
        bodyDerivedParts (.obj fs) = [])
    ∧ (jsonParse (jsToString smv) = some (.arr xs) →
        serverMessagesPart smv = jsJoin "; " (xs.map serverMessageElem))
    ∧ (jsonParse (jsToString smv) = none →
        serverMessagesPart smv = jsToString smv)
    ∧ (jsonParse (jsToString smv) = some w → (∀ ys, w ≠ .arr ys) →
        serverMessagesPart smv = jsToString smv)
    ∧ (jsonParse (jsToString msgv) = some pv → pv ≠ .nullv →
        (getField pv "message").truthy = true →
        serverMessageElem msgv = getField pv "message")
    ∧ (jsonParse (jsToString msgv) = none → serverMessageElem msgv = msgv)
    ∧ strContains
        (extractErrorDetails (.axiosErr "Request failed with status code 417"
          (some (417, "Expectation Failed",
            .obj [("_server_messages",
              .str "[\"\x7b\\\"message\\\": \\\"Name is required\\\"\x7d\"]")]))))
        "Name is required" = true := by
  refine ⟨?_, ?_, ?_, ?_, ?_, ?_, ?_, ?_, ?_, ?_, ?_, by decide⟩
  · intro h1
    simp [bodyDerivedParts, getField, h1]
  · intro h1 h2
    simp [bodyDerivedParts, getField, h1, h2]
  · intro h1 h2 h3
    simp [bodyDerivedParts, getField, h1, h2, h3]
  · intro h1 h2 h3 h4
    simp [bodyDerivedParts, getField, h1, h2, h3, h4]
  · intro h1 h2 h3 h4 h5
    simp [bodyDerivedParts, getField, h1, h2, h3, h4, h5]
  · intro h1 h2 h3 h4 h5
    simp [bodyDerivedParts, getField, h1, h2, h3, h4, h5]
  · intro hp
    simp [serverMessagesPart, hp]
  · intro hp
    simp [serverMessagesPart, hp]
  · intro hp hw
    simp only [serverMessagesPart, hp]
  · intro hp hnull htr
    simp only [serverMessageElem, hp]
    cases pv with
    | nullv => exact absurd rfl hnull
    | undefv => simp [htr]
    | bool b => simp [htr]
    | num n => simp [htr]
    | str s => simp [htr]
    | arr ys => simp [htr]
    | obj gs => simp [htr]
  · intro hp
    simp [serverMessageElem, hp]

/-- C2 witness: the priority conjunct applied at a body carrying both a
truthy `_server_messages` and a `message` — only the former is used. -/
theorem extractErrorDetails_serverMessages_witness :
    bodyDerivedParts (.obj [("_server_messages", .str "[]"), ("message", .str "ignored")])
      = [serverMessagesPart
          (lookupLast [("_server_messages", .str "[]"), ("message", .str "ignored")]
            "_server_messages")] :=
  (extractErrorDetails_serverMessages
    [("_server_messages", .str "[]"), ("message", .str "ignored")]
    .undefv .undefv .undefv .undefv []).1 (by decide)

/-- C7: `getAllDocTypes` is total (it returns a plain list, never a
failure): the primary schema listing maps out the `name` fields; when
the primary tier fails the secondary search endpoint's `value` fields
are mapped; when both fail the call returns the fixed built-in list of
14 common DocType names (all strings). -/
theorem getAllDocTypes_three_tiers (net : Net) (b w : JSVal)
    (items names vals : List JSVal) (e e' : Caught) :
    (net .docTypeListPrimary = .error e → net .docTypeListSecondary = .error e' →
      getAllDocTypes net = (commonDocTypes, [.docTypeListPrimary, .docTypeListSecondary]))
    ∧ (net .docTypeListPrimary = .ok b → b.truthy = true →
        getField b "data" = .arr items →
        items.mapM (fun it => getProp it "name") = .ok names →
        getAllDocTypes net = (names, [.docTypeListPrimary]))
    ∧ (net .docTypeListPrimary = .error e → net .docTypeListSecondary = .ok w →
        w.truthy = true → getField w "results" = .arr items →
        items.mapM (fun it => getProp it "value") = .ok vals →
        getAllDocTypes net = (vals, [.docTypeListPrimary, .docTypeListSecondary]))
    ∧ commonDocTypes.length = 14
    ∧ commonDocTypes.all (fun v => match v with | .str _ => true | _ => false) = true := by
  refine ⟨?_, ?_, ?_, by decide, by decide⟩
  · intro h1 h2
    simp [getAllDocTypes, docTypesSecondary, h1, h2]
  · intro h hb hd hm
    simp only [List.mapM] at hm
    have ha : (JSVal.arr items).truthy = true := rfl
    simp [getAllDocTypes, h, hb, hd, hm, ha]
  · intro h1 h2 hw hr hm
    simp only [List.mapM] at hm
    have ha : (JSVal.arr items).truthy = true := rfl
    simp [getAllDocTypes, docTypesSecondary, h1, h2, hw, hr, hm, ha]

/-- C7 witness: on a network where both metadata endpoints fail, the
call still returns — with the built-in fallback list. -/
theorem getAllDocTypes_three_tiers_witness :
    getAllDocTypes emptyNet
      = (commonDocTypes, [.docTypeListPrimary, .docTypeListSecondary]) :=
  (getAllDocTypes_three_tiers emptyNet .undefv .undefv [] [] []
    (.plainError "connect ECONNREFUSED") (.plainError "connect ECONNREFUSED")).1
    rfl rfl

/-- C8: on a successful schema response `getDocTypeFields` projects each
field record to an object carrying exactly the six keys `fieldname`,
`fieldtype`, `label`, `reqd`, `options`, `description`; `reqd` defaults
to `0` and `options`/`description` to `null` when the source value is
absent (falsy); a payload lacking a fields list yields `[]` without
throwing. -/
theorem getDocTypeFields_projection (dt : String) (net : Net) (b f : JSVal)
    (flds ps : List JSVal) (rec : List (String × JSVal)) :
    (net (.docTypeSchema dt) = .ok b → b.truthy = true →
      (getField b "data").truthy = true →
      getField (getField b "data") "fields" = .arr flds →
      flds.mapM projectField = .ok ps →
      getDocTypeFields dt net = (.ok ps, [.docTypeSchema dt]))
    ∧ (∀ p, projectField f = .ok p →
        ∃ v1 v2 v3 v4 v5 v6, p = .obj
          [("fieldname", v1), ("fieldtype", v2), ("label", v3),
           ("reqd", v4), ("options", v5), ("description", v6)])
    ∧ (∀ p, projectField (.obj rec) = .ok p →
        ((lookupLast rec "reqd").truthy = false → getField p "reqd" = .num 0)
        ∧ ((lookupLast rec "options").truthy = false → getField p "options" = .nullv)
        ∧ ((lookupLast rec "description").truthy = false →
            getField p "description" = .nullv))
    ∧ (net (.docTypeSchema dt) = .ok b →
        (getField (getField b "data") "fields").truthy = false →
        getDocTypeFields dt net = (.ok [], [.docTypeSchema dt])) := by
  refine ⟨?_, ?_, ?_, ?_⟩
  · intro h hb hd hf hm
    simp only [List.mapM] at hm
    have ha : (JSVal.arr flds).truthy = true := rfl
    simp [getDocTypeFields, h, hb, hd, hf, hm, ha]
  · intro p hp
    cases f <;> simp [projectField] at hp <;>
      exact ⟨_, _, _, _, _, _, hp.symm⟩
  · intro p hp
    have he := Except.ok.inj hp
    subst he
    refine ⟨fun hr => ?_, fun ho => ?_, fun hd2 => ?_⟩
    · simp only [lookupLast] at hr
      simp [getField, lookupLast, hr]
    · simp only [lookupLast] at ho
      simp [getField, lookupLast, ho]
    · simp only [lookupLast] at hd2
      simp [getField, lookupLast, hd2]
  · intro h hf
    simp [getDocTypeFields, h, hf]

/-- C8 witness: the projection theorem applied to a concrete schema
response with one field record that lacks `options` and `description` —
both default to `null` in the six-key projection. -/
theorem getDocTypeFields_projection_witness :
    getDocTypeFields "Customer"
      (fun _ => .ok (.obj [("data", .obj [("fields", .arr
        [.obj [("fieldname", .str "customer_name"), ("fieldtype", .str "Data"),
               ("label", .str "Name"), ("reqd", .num 1)]])])]))
      = (.ok [.obj
          [("fieldname", .str "customer_name"), ("fieldtype", .str "Data"),
           ("label", .str "Name"), ("reqd", .num 1), ("options", .nullv),
           ("description", .nullv)]], [.docTypeSchema "Customer"]) :=
  (getDocTypeFields_projection "Customer"
    (fun _ => .ok (.obj [("data", .obj [("fields", .arr
      [.obj [("fieldname", .str "customer_name"), ("fieldtype", .str "Data"),
             ("label", .str "Name"), ("reqd", .num 1)]])])]))
    (.obj [("data", .obj [("fields", .arr
      [.obj [("fieldname", .str "customer_name"), ("fieldtype", .str "Data"),
             ("label", .str "Name"), ("reqd", .num 1)]])])])
    .undefv
    [.obj [("fieldname", .str "customer_name"), ("fieldtype", .str "Data"),
           ("label", .str "Name"), ("reqd", .num 1)]]
    [.obj [("fieldname", .str "customer_name"), ("fieldtype", .str "Data"),
           ("label", .str "Name"), ("reqd", .num 1), ("options", .nullv),
           ("description", .nullv)]]
    []).1 rfl rfl rfl rfl rfl

/-- C1, counterexample to the claim as stated: a resource read while
unauthenticated does **not** return an error-flagged result — the
handler throws a protocol-level `McpError(InvalidRequest)` (while still
attempting no upstream call). -/
theorem readResource_unauth_throws_protocol :
    readResource false "erpnext://DocTypes" emptyNet
      = (.error (.invalidRequest notAuthenticatedMsg), []) := rfl

/-- C1, amended: every tool call checks authentication first and, when
unauthenticated, returns a normal (non-protocol) error-flagged result
with no upstream call attempted; every resource read also checks
authentication first and attempts no upstream call, but raises a
protocol-level `InvalidRequest` error instead of returning an
error-flagged result. -/
theorem authPrecheck_first (name : String) (args : JSVal) (uri : String)
    (net : Net) :
    (name ∈ knownToolNames →
      callToolDispatch false name args net
        = .ok (errorResponse notAuthenticatedMsg, []))
    ∧ readResource false uri net
      = (.error (.invalidRequest notAuthenticatedMsg), []) := by
  constructor
  · intro h
    fin_cases h <;> rfl
  · rfl

/-- C1 witness: the amended theorem applied to the `get_documents` tool
and to a concrete document resource URI while unauthenticated. -/
theorem authPrecheck_first_witness :
    callToolDispatch false "get_documents" (.obj []) emptyNet
      = .ok (errorResponse notAuthenticatedMsg, [])
    ∧ readResource false "erpnext://Customer/CUST-0001" emptyNet
      = (.error (.invalidRequest notAuthenticatedMsg), []) :=
  ⟨(authPrecheck_first "get_documents" (.obj []) "x" emptyNet).1
      (by simp [knownToolNames]),
    (authPrecheck_first "get_documents" (.obj [])
      "erpnext://Customer/CUST-0001" emptyNet).2⟩

/-- C10: `handleGetDocuments` validates only `doctype` and `limit`; for
every argument object whose `doctype` and `limit` pass, the upstream
list request is issued with the raw `filters` and `fields` values
exactly as received — `validateStringArray` and `validateObject` are
never consulted, so values they would reject still reach the request
construction. -/
theorem handleGetDocuments_forwards_unchecked (args : JSVal) (net : Net)
    (dt : String) (lim : Option Int) :
    (validateIdentifier (optGet args "doctype") "doctype" = .ok dt →
      validatePositiveInt (optGet args "limit") "limit" = .ok lim →
      (handleGetDocuments true args net).2
        = [.listResource dt
            (buildListParams (optGet args "filters") (optGet args "fields") lim)])
    ∧ validateStringArray (.num 7) "fields" = .error "fields must be an array"
    ∧ validateObject (.num 8) "filters" = .error "filters must be an object"
    ∧ (handleGetDocuments true
        (.obj [("doctype", .str "Customer"), ("fields", .num 7),
               ("filters", .num 8)]) emptyNet).2
      = [.listResource "Customer" [("filters", .str "8")]] := by
  refine ⟨?_, rfl, rfl, rfl⟩
  intro h1 h2
  have hca : checkAuth true = none := rfl
  simp only [handleGetDocuments, hca, h1, h2, clientGetDocList]
  cases hnet : net (UpReq.listResource dt
      (buildListParams (optGet args "filters") (optGet args "fields") lim)) with
  | ok body => cases hgp : getProp body "data" <;> simp [hnet, hgp]
  | error c => simp [hnet]

/-- C10 witness: the forwarding theorem applied at an argument object
whose `fields` is a plain string array and whose `filters` is an
object — the issued request carries them as constructed parameters. -/
theorem handleGetDocuments_forwards_unchecked_witness :
    (handleGetDocuments true
      (.obj [("doctype", .str "Customer"), ("fields", .arr [.str "name"]),
             ("filters", .obj [("disabled", .num 0)]), ("limit", .num 5)])
      emptyNet).2
      = [.listResource "Customer"
          (buildListParams
            (optGet (.obj [("doctype", .str "Customer"),
              ("fields", .arr [.str "name"]),
              ("filters", .obj [("disabled", .num 0)]), ("limit", .num 5)])
              "filters")
            (optGet (.obj [("doctype", .str "Customer"),
              ("fields", .arr [.str "name"]),
              ("filters", .obj [("disabled", .num 0)]), ("limit", .num 5)])
              "fields")
            (some 5))] :=
  (handleGetDocuments_forwards_unchecked
    (.obj [("doctype", .str "Customer"), ("fields", .arr [.str "name"]),
           ("filters", .obj [("disabled", .num 0)]), ("limit", .num 5)])
    emptyNet "Customer" (some 5)).1 rfl rfl
